import Mathlib

/-!
Shallow embedding of `budget_automator.py`, a single-pass transaction
categorization and monthly report pipeline, together with proofs of the
specified properties.

Modelling conventions:
* program strings are lists of characters (`Str`);
* monetary amounts are exact rationals (the script computes with machine
  floats; every value appearing in the claims is exactly representable);
* the two external parsing libraries are modelled on the input shapes the
  script's claims exercise: date parsing accepts the ISO `YYYY-MM-DD` form
  and amount parsing accepts plain decimal literals with an optional sign;
* a raised `SystemExit` is an `Except.error` value.
-/

/-- Program strings, as lists of characters. -/
abbrev Str := List Char

/-- Whitespace test used by `strip` (models the default Python `str.strip`). -/
def wsChar (c : Char) : Bool := c == ' ' || c == '\t' || c == '\n' || c == '\r'

/-- Models Python `str.strip`: drop whitespace from both ends. -/
def strip (s : Str) : Str := ((s.dropWhile wsChar).reverse.dropWhile wsChar).reverse

/-- Models Python `str.lower` on ASCII text: `Char.toLower` maps the 26
uppercase ASCII letters down and fixes every other character (all keywords
the script compares are ASCII). -/
def lower (s : Str) : Str := s.map Char.toLower

/-- ASCII uppercase-letter test. -/
def isUpperAscii (c : Char) : Bool := decide (65 ≤ c.toNat) && decide (c.toNat ≤ 90)

/-- ASCII digit test. -/
def isDigit (c : Char) : Bool := decide (48 ≤ c.toNat) && decide (c.toNat ≤ 57)

/-- Numeric value of a digit string, most significant digit first. -/
def digitsToNat (s : Str) : Nat := s.foldl (fun a c => a * 10 + (c.toNat - 48)) 0

/-- Calendar dates stored in the `date` column after parsing. -/
structure Date where
  year : Nat
  month : Nat
  day : Nat
deriving DecidableEq

/-- Models date parsing of the `date` column (`pd.to_datetime` with
`errors="coerce"`), restricted to the ISO `YYYY-MM-DD` form; any other
string is an unparseable date. -/
def parseDate (s : Str) : Option Date :=
  match (strip s).splitOn '-' with
  | [y, m, d] =>
    if decide (y.length = 4) && y.all isDigit
        && decide (m.length = 2) && m.all isDigit
        && decide (d.length = 2) && d.all isDigit
        && decide (1 ≤ digitsToNat m) && decide (digitsToNat m ≤ 12)
        && decide (1 ≤ digitsToNat d) && decide (digitsToNat d ≤ 31) then
      some ⟨digitsToNat y, digitsToNat m, digitsToNat d⟩
    else none
  | _ => none

/-- Left-pad a digit string with zeros to the given width. -/
def padZero (w : Nat) (s : Str) : Str := List.replicate (w - s.length) '0' ++ s

/-- Models `strftime("%Y-%m")` as used by the month filter. -/
def formatYM (d : Date) : Str :=
  padZero 4 (Nat.toDigits 10 d.year) ++ ('-' :: padZero 2 (Nat.toDigits 10 d.month))

/-- Models numeric parsing of an unsigned amount (`pd.to_numeric` with
`errors="coerce"`, restricted to decimal literals): digits with an optional
fractional part. -/
def parseUnsigned (s : Str) : Option Rat :=
  match s.splitOn '.' with
  | [i] => if !i.isEmpty && i.all isDigit then some ((digitsToNat i : Nat) : Rat) else none
  | [i, f] =>
    if !i.isEmpty && i.all isDigit && !f.isEmpty && f.all isDigit then
      some (((digitsToNat i : Nat) : Rat) + ((digitsToNat f : Nat) : Rat) / (10 : Rat) ^ f.length)
    else none
  | _ => none

/-- Amount-cell parsing: an optional leading sign before an unsigned decimal. -/
def parseAmount (s : Str) : Option Rat :=
  match strip s with
  | '-' :: rest => (parseUnsigned rest).map (fun x => -x)
  | '+' :: rest => parseUnsigned rest
  | rest => parseUnsigned rest

/-- Category rule sets: an ordered mapping from category label to keyword
list (Python dicts preserve insertion order). -/
abbrev Rules := List (Str × List Str)

/-- Does the first string begin the second one. -/
def leadsWith : Str → Str → Bool
  | [], _ => true
  | _ :: _, [] => false
  | k :: ks, c :: cs => k == c && leadsWith ks cs

/-- Models the Python containment test `kw in d`: `kw` occurs contiguously
inside the second string. -/
def hasSub (kw : Str) : Str → Bool
  | [] => leadsWith kw []
  | c :: cs => leadsWith kw (c :: cs) || hasSub kw cs

/-- Inner loop of `categorize`: does some keyword of the list occur in `d`. -/
def kwHit (d : Str) : List Str → Bool
  | [] => false
  | kw :: rest => hasSub kw d || kwHit d rest

/-- Fallback category label. -/
def uncategorized : Str := "uncategorized".data

/-- Outer loop of `categorize` over the ordered rule list. -/
def catScan (d : Str) : Rules → Str
  | [] => uncategorized
  | (cat, kws) :: rest => if kwHit d kws then cat else catScan d rest

/-- Models `categorize(desc, rules)`: lowercase the description and return
the first category, in rule order, one of whose keywords occurs in it;
return the fallback label when none matches. -/
def categorize (desc : Str) (rules : Rules) : Str := catScan (lower desc) rules

/-- Canonical column name `date`. -/
def dateCol : Str := "date".data

/-- Canonical column name `description`. -/
def descCol : Str := "description".data

/-- Canonical column name `amount`. -/
def amountCol : Str := "amount".data

/-- Synonym table of `normalize_columns` (the `alias` dict). -/
def aliasPairs : List (Str × Str) :=
  [("posted date".data, dateCol),
   ("transaction date".data, dateCol),
   ("details".data, descCol),
   ("memo".data, descCol),
   ("amount (usd)".data, amountCol),
   ("debit".data, amountCol),
   ("credit".data, amountCol)]

/-- Renaming applied to one column name: lowercase and trim, keep canonical
names, map known synonyms, otherwise keep the lowercased name. -/
def canonName (c : Str) : Str :=
  let cl := strip (lower c)
  if cl = dateCol ∨ cl = descCol ∨ cl = amountCol then cl
  else
    match aliasPairs.lookup cl with
    | some v => v
    | none => cl

/-- An in-memory table: column names and rows of cells (the DataFrame the
script reads from the CSV). -/
structure Table where
  cols : List Str
  rows : List (List Str)
deriving DecidableEq

/-- Column names after renaming. -/
def mappedCols (t : Table) : List Str := t.cols.map canonName

/-- Are all three canonical columns present after renaming (the `issubset`
check). -/
def hasCanonical (t : Table) : Bool :=
  (mappedCols t).contains dateCol && (mappedCols t).contains descCol
    && (mappedCols t).contains amountCol

/-- Positions of the columns carrying a given label, in column order
(label-based selection can hit several columns when synonyms collide). -/
def labelIndices (cols : List Str) (n : Str) : List Nat :=
  (List.range cols.length).filter (fun i => cols.getD i [] == n)

/-- Positions selected by the final projection onto the canonical labels. -/
def selIdxs (cols : List Str) : List Nat :=
  labelIndices cols dateCol ++ labelIndices cols descCol ++ labelIndices cols amountCol

/-- Renamed table projected onto the canonical labels. -/
def normTable (t : Table) : Table :=
  ⟨(selIdxs (mappedCols t)).map (fun i => (mappedCols t).getD i []),
   t.rows.map (fun r => (selIdxs (mappedCols t)).map (fun i => r.getD i []))⟩

/-- Message of the missing-columns error. -/
def errCols : Str := "CSV must include date, description, amount columns (case-insensitive).".data

/-- Models `normalize_columns`: rename, require the canonical columns,
project onto them. -/
def normalize_columns (t : Table) : Except Str Table :=
  if hasCanonical t then Except.ok (normTable t) else Except.error errCols

/-- A fully processed transaction row (the DataFrame row after the
`category` and `type` columns are added). -/
structure TxRow where
  date : Date
  description : Str
  amount : Rat
  category : Str
  type : Str
deriving DecidableEq

/-- Type label of income rows. -/
def incomeTy : Str := "income".data

/-- Type label of expense rows. -/
def expenseTy : Str := "expense".data

/-- Type label of zero-amount rows. -/
def neutralTy : Str := "neutral".data

/-- Models the credit/debit classification: the sign of the
(post-inversion) amount. -/
def typeOf (x : Rat) : Str :=
  if 0 < x then incomeTy else if x < 0 then expenseTy else neutralTy

/-- Does some cell of the first date-labelled column fail date parsing (`main`
reaches this check only when the date label matches a single column, so that
column is the whole date selection). -/
def badDates (t : Table) : Bool :=
  (normTable t).rows.any (fun r => (parseDate (r.getD 0 [])).isNone)

/-- Does some cell of the first amount-labelled column fail amount parsing
(`main` reaches this check only when the amount label matches a single column,
so that column is the whole amount selection). -/
def badAmounts (t : Table) : Bool :=
  (normTable t).rows.any (fun r => (parseAmount (r.getD 2 [])).isNone)

/-- Models the sign-inversion step (`--invert`) applied to the amount
column. -/
def invertAmounts (xs : List Rat) : List Rat := xs.map (fun x => -x)

/-- One processed row: parsed date, stripped description, parsed and
optionally inverted amount, plus the derived category and type columns. -/
def parseRow (inv : Bool) (rules : Rules) (r : List Str) : Option TxRow :=
  match parseDate (r.getD 0 []), parseAmount (r.getD 2 []) with
  | some d, some a0 =>
    let a : Rat := if inv then -a0 else a0
    let ds : Str := strip (r.getD 1 [])
    some ⟨d, ds, a, categorize ds rules, typeOf a⟩
  | _, _ => none

/-- Processed transaction rows of a table (total; `run` consults it only
after the date and amount columns are known to parse). -/
def txRows (t : Table) (inv : Bool) (rules : Rules) : List TxRow :=
  (normTable t).rows.filterMap (parseRow inv rules)

/-- Models `month_filter`: with no month the table passes through,
otherwise keep the rows whose date formats to the given `YYYY-MM` string. -/
def month_filter (rows : List TxRow) (month : Option Str) : List TxRow :=
  match month with
  | none => rows
  | some m => rows.filter (fun r => formatYM r.date == m)

/-- Sum of amounts over rows classified income. -/
def total_income (rows : List TxRow) : Rat :=
  ((rows.filter (fun r => r.type == incomeTy)).map TxRow.amount).sum

/-- Negated sum of amounts over rows classified expense (a positive
magnitude). -/
def total_expense (rows : List TxRow) : Rat :=
  -((rows.filter (fun r => r.type == expenseTy)).map TxRow.amount).sum

/-- Distinct categories of expense rows (the script orders the series only
for presentation; order is irrelevant to the claims). -/
def expenseCats (rows : List TxRow) : List Str :=
  ((rows.filter (fun r => r.type == expenseTy)).map TxRow.category).dedup

/-- Expense magnitude of one category. -/
def catExpense (rows : List TxRow) (c : Str) : Rat :=
  -(((rows.filter (fun r => r.type == expenseTy && r.category == c)).map TxRow.amount).sum)

/-- Per-category expense magnitudes (the `expenses_by_cat` series). -/
def expenses_by_cat (rows : List TxRow) : List (Str × Rat) :=
  (expenseCats rows).map (fun c => (c, catExpense rows c))

/-- Aggregated report figures together with the table they came from. -/
structure Summary where
  total_income : Rat
  total_expense : Rat
  savings : Rat
  savings_rate : Rat
  expenses_by_cat : List (Str × Rat)
  table : List TxRow
deriving DecidableEq

/-- Models the aggregation block of `main`. -/
def summarize (rows : List TxRow) : Summary :=
  let ti := total_income rows
  let te := total_expense rows
  let sv := ti - te
  ⟨ti, te, sv, if 0 < ti then sv / ti * 100 else 0, expenses_by_cat rows, rows⟩

/-- Message of the unparseable-dates error. -/
def errDates : Str := "Some dates could not be parsed.".data

/-- Message of the unparseable-amounts error. -/
def errAmounts : Str := "Some amounts could not be parsed as numbers.".data

/-- Message of the empty month-selection error. -/
def errMonth (m : Str) : Str := "No transactions found for ".data ++ m ++ ".".data

/-- Models the pipeline of `main` minus file output on tables where each
canonical label matches at most one column, so every label selection behaves
as the single column read here: normalize columns, validate dates and
amounts, optionally invert, categorize and classify, filter to the requested
month, aggregate. An error value is a terminating `SystemExit`. `runProgram`
below extends this with the crash paths of duplicated canonical labels and
agrees with it whenever no label is duplicated. -/
def run (t : Table) (month : Option Str) (inv : Bool) (rules : Rules) :
    Except Str Summary :=
  if hasCanonical t then
    if badDates t then Except.error errDates
    else if badAmounts t then Except.error errAmounts
    else
      let rows := txRows t inv rules
      match month with
      | none => Except.ok (summarize rows)
      | some m =>
        let sel := month_filter rows (some m)
        if sel.isEmpty then Except.error (errMonth m) else Except.ok (summarize sel)
  else Except.error errCols

/-- Built-in default category rules embedded in `main`. -/
def defaultRules : Rules :=
  [("groceries".data,
    ["kroger".data, "whole foods".data, "trader joe".data, "walmart".data, "costco".data]),
   ("dining".data,
    ["mcdonald".data, "chipotle".data, "starbucks".data, "taco bell".data, "pizza".data,
     "panera".data]),
   ("transport".data,
    ["uber".data, "lyft".data, "shell".data, "exxon".data, "chevron".data, "mobil".data,
     "gas".data]),
   ("shopping".data,
    ["amazon".data, "target".data, "best buy".data, "nike".data, "adidas".data]),
   ("subscriptions".data,
    ["netflix".data, "spotify".data, "apple".data, "google storage".data, "prime".data]),
   ("utilities".data,
    ["verizon".data, "xfinity".data, "comcast".data, "at&t".data, "t-mobile".data,
     "spectrum".data]),
   ("health".data,
    ["cvs".data, "walgreens".data, "rite aid".data, "walgreens".data]),
   ("education".data,
    ["udemy".data, "coursera".data, "khan academy".data]),
   ("income".data,
    ["payroll".data, "paycheck".data, "direct deposit".data, "employer".data])]

/-- Two-row input table of the end-to-end example in the spec. -/
def exTable : Table :=
  ⟨[dateCol, descCol, amountCol],
   [["2024-01-05".data, "KROGER".data, "-50.00".data],
    ["2024-01-10".data, "PAYROLL".data, "2000.00".data]]⟩

/-- Month argument of the end-to-end example. -/
def exMonth : Str := "2024-01".data

/-- Category label of the groceries rule. -/
def groceriesCat : Str := "groceries".data

/-- Processed KROGER row of the end-to-end example. -/
def krogerRow : TxRow := ⟨⟨2024, 1, 5⟩, "KROGER".data, -50, groceriesCat, expenseTy⟩

/-- Processed PAYROLL row of the end-to-end example. -/
def payrollRow : TxRow := ⟨⟨2024, 1, 10⟩, "PAYROLL".data, 2000, incomeTy, incomeTy⟩

/-- Counterexample table of claim 3: debit and credit both alias to amount. -/
def cxTable : Table := ⟨[dateCol, descCol, "debit".data, "credit".data], []⟩

/-- Synonym-named table of the claim-3 example. -/
def synTable : Table :=
  ⟨["Posted Date".data, "Details".data, "Debit".data],
   [["2024-01-05".data, "KROGER".data, "50.00".data]]⟩

/-- Example description of claim 2. -/
def exDesc : Str := "KROGER #123".data

/-- One-rule set of the claim-2 example. -/
def exRules : Rules := [(groceriesCat, ["kroger".data])]

/-- Example description matching no rule. -/
def noMatchDesc : Str := "ZZZ".data

/-- Month with no transactions, for the empty-selection witness. -/
def emptyMonth : Str := "2999-12".data

/-- Uppercase keyword of the claim-10 witness. -/
def upperKw : Str := "KROGER".data

/-- Rule set whose only keywords contain uppercase letters (claim 10). -/
def upperRules : Rules := [(uncategorized, [upperKw])]

/-- Does a string contain an uppercase ASCII letter. -/
def containsUpper (s : Str) : Bool := s.any isUpperAscii

/-- Number of columns carrying the given canonical label after renaming. -/
def labelCount (t : Table) (n : Str) : Nat := (labelIndices (mappedCols t) n).length

/-- Does some canonical label match more than one column after renaming (the
label selections of `main` then return multi-column DataFrames instead of
single columns). -/
def dupLabels (t : Table) : Bool :=
  decide (1 < labelCount t dateCol) || decide (1 < labelCount t descCol)
    || decide (1 < labelCount t amountCol)

/-- Message of the uncaught ValueError raised by `pd.to_datetime` when the date
label matches several columns (a DataFrame without year, month, day columns). -/
def errDupDate : Str := "ValueError: to_datetime on a multi-column selection".data

/-- Message of the uncaught AttributeError raised by the `.str` accessor when
the description label matches several columns. -/
def errDupDesc : Str := "AttributeError: str accessor on a multi-column selection".data

/-- Message of the uncaught TypeError raised by `pd.to_numeric` when the amount
label matches several columns. -/
def errDupAmount : Str := "TypeError: to_numeric on a multi-column selection".data

/-- Models `main` in full, including the crash paths on duplicated canonical
labels: when a canonical label matches several columns, the label selection is
a DataFrame, and `pd.to_datetime` (line 95), the `.str` accessor (line 99) and
`pd.to_numeric` (line 101) each raise an uncaught exception there. Each
duplicate check sits at the source line where its selection happens, so dates
are coerced and validated before the description and amount columns are
touched. An uncaught exception, like a `SystemExit`, terminates the process
with a non-zero status and is an error value here. On tables where every
canonical label matches at most one column this agrees with `run`. -/
def runProgram (t : Table) (month : Option Str) (inv : Bool) (rules : Rules) :
    Except Str Summary :=
  if hasCanonical t then
    if 1 < labelCount t dateCol then Except.error errDupDate
    else if badDates t then Except.error errDates
    else if 1 < labelCount t descCol then Except.error errDupDesc
    else if 1 < labelCount t amountCol then Except.error errDupAmount
    else if badAmounts t then Except.error errAmounts
    else
      let rows := txRows t inv rules
      match month with
      | none => Except.ok (summarize rows)
      | some m =>
        let sel := month_filter rows (some m)
        if sel.isEmpty then Except.error (errMonth m) else Except.ok (summarize sel)
  else Except.error errCols

/-- Counterexample table of claim 4: all three canonical names present and
every cell parseable, but debit and credit both map to amount. -/
def dupTable : Table :=
  ⟨[dateCol, descCol, "debit".data, "credit".data],
   [["2024-01-05".data, "X".data, "1.00".data, "2.00".data]]⟩

theorem toNat_ofNat_valid (n : Nat) (h : n.isValidChar) : (Char.ofNat n).toNat = n := by
  unfold Char.ofNat
  rw [dif_pos h]
  rfl

theorem toLower_not_upper (c : Char) : isUpperAscii (Char.toLower c) = false := by
  show isUpperAscii (if c.toNat ≥ 65 ∧ c.toNat ≤ 90 then Char.ofNat (c.toNat + 32) else c) = false
  by_cases h : c.toNat ≥ 65 ∧ c.toNat ≤ 90
  · rw [if_pos h]
    have hv : (c.toNat + 32).isValidChar := Or.inl (by omega)
    unfold isUpperAscii
    rw [toNat_ofNat_valid _ hv]
    have h2 : ¬ (c.toNat + 32 ≤ 90) := by omega
    simp [h2]
  · rw [if_neg h]
    unfold isUpperAscii
    rcases not_and_or.mp h with h1 | h1 <;> simp [h1]

theorem mem_lower_not_upper (s : Str) (c : Char) (hc : c ∈ lower s) :
    isUpperAscii c = false := by
  rcases List.mem_map.mp hc with ⟨c0, _, rfl⟩
  exact toLower_not_upper c0

theorem leadsWith_iff (kw s : Str) : leadsWith kw s = true ↔ ∃ u, s = kw ++ u := by
  induction kw generalizing s with
  | nil => simp [leadsWith]
  | cons k ks ih =>
    cases s with
    | nil => simp [leadsWith]
    | cons c cs =>
      simp only [leadsWith, Bool.and_eq_true, beq_iff_eq, ih, List.cons_append,
        List.cons.injEq]
      constructor
      · rintro ⟨rfl, u, rfl⟩
        exact ⟨u, rfl, rfl⟩
      · rintro ⟨u, rfl, rfl⟩
        exact ⟨rfl, u, rfl⟩

theorem hasSub_iff (kw hay : Str) : hasSub kw hay = true ↔ ∃ p q, hay = p ++ kw ++ q := by
  induction hay with
  | nil =>
    simp only [hasSub, leadsWith_iff]
    constructor
    · rintro ⟨u, hu⟩
      exact ⟨[], u, hu⟩
    · rintro ⟨p, q, hpq⟩
      rcases List.append_eq_nil.mp hpq.symm with ⟨hp, hq⟩
      rcases List.append_eq_nil.mp hp with ⟨hp1, hkw⟩
      exact ⟨[], by simp [hkw]⟩
  | cons c cs ih =>
    simp only [hasSub, Bool.or_eq_true, leadsWith_iff, ih]
    constructor
    · rintro (⟨u, hu⟩ | ⟨p, q, hpq⟩)
      · exact ⟨[], u, by simpa using hu⟩
      · exact ⟨c :: p, q, by simp [hpq]⟩
    · rintro ⟨p, q, hpq⟩
      cases p with
      | nil =>
        left
        exact ⟨q, by simpa using hpq⟩
      | cons x xs =>
        right
        rw [List.cons_append, List.cons_append] at hpq
        injection hpq with h1 h2
        exact ⟨xs, q, h2⟩

theorem kwHit_iff (d : Str) (kws : List Str) :
    kwHit d kws = true ↔ ∃ kw ∈ kws, hasSub kw d = true := by
  induction kws with
  | nil => simp [kwHit]
  | cons kw rest ih => simp [kwHit, ih]

theorem catScan_no_match (d : Str) (rules : Rules)
    (h : ∀ p ∈ rules, ∀ kw ∈ p.2, hasSub kw d = false) :
    catScan d rules = uncategorized := by
  induction rules with
  | nil => rfl
  | cons pr rest ih =>
    obtain ⟨cat, kws⟩ := pr
    have hk : ¬ kwHit d kws = true := by
      intro hcon
      rcases (kwHit_iff d kws).mp hcon with ⟨kw, hkw, hsub⟩
      have hf := h (cat, kws) (List.mem_cons_self _ _) kw hkw
      rw [hf] at hsub
      exact Bool.false_ne_true hsub
    show (if kwHit d kws = true then cat else catScan d rest) = uncategorized
    rw [if_neg hk]
    exact ih (fun p hp => h p (List.mem_cons_of_mem _ hp))

theorem catScan_first (d : Str) (pre : Rules) (cat : Str) (kws : List Str) (post : Rules)
    (hpre : ∀ p ∈ pre, ∀ kw ∈ p.2, hasSub kw d = false)
    (hhit : ∃ kw ∈ kws, hasSub kw d = true) :
    catScan d (pre ++ (cat, kws) :: post) = cat := by
  induction pre with
  | nil =>
    have hk : kwHit d kws = true := (kwHit_iff d kws).mpr hhit
    show (if kwHit d kws = true then cat else catScan d post) = cat
    rw [if_pos hk]
  | cons pr rest ih =>
    obtain ⟨c0, k0⟩ := pr
    have hk : ¬ kwHit d k0 = true := by
      intro hcon
      rcases (kwHit_iff d k0).mp hcon with ⟨kw, hkw, hsub⟩
      have hf := hpre (c0, k0) (List.mem_cons_self _ _) kw hkw
      rw [hf] at hsub
      exact Bool.false_ne_true hsub
    show (if kwHit d k0 = true then c0 else catScan d (rest ++ (cat, kws) :: post)) = cat
    rw [if_neg hk]
    exact ih (fun p hp => hpre p (List.mem_cons_of_mem _ hp))

theorem parseRow_none_date (inv : Bool) (rules : Rules) (r : List Str)
    (hd : parseDate (r.getD 0 []) = none) : parseRow inv rules r = none := by
  unfold parseRow
  rw [hd]

theorem parseRow_none_amount (inv : Bool) (rules : Rules) (r : List Str)
    (ha : parseAmount (r.getD 2 []) = none) : parseRow inv rules r = none := by
  cases hd : parseDate (r.getD 0 []) with
  | none => exact parseRow_none_date inv rules r hd
  | some d =>
    unfold parseRow
    rw [hd, ha]

theorem parseRow_some (inv : Bool) (rules : Rules) (r : List Str) (d : Date) (a : Rat)
    (hd : parseDate (r.getD 0 []) = some d) (ha : parseAmount (r.getD 2 []) = some a) :
    parseRow inv rules r =
      some ⟨d, strip (r.getD 1 []), if inv then -a else a,
        categorize (strip (r.getD 1 [])) rules, typeOf (if inv then -a else a)⟩ := by
  unfold parseRow
  rw [hd, ha]

theorem typeOf_cases (a : Rat) :
    (typeOf a = incomeTy ↔ 0 < a) ∧ (typeOf a = expenseTy ↔ a < 0) ∧
      (typeOf a = neutralTy ↔ a = 0) := by
  have hie : incomeTy ≠ expenseTy := by decide
  have hin : incomeTy ≠ neutralTy := by decide
  have hen : expenseTy ≠ neutralTy := by decide
  unfold typeOf
  rcases lt_trichotomy 0 a with h | h | h
  · rw [if_pos h]
    exact ⟨by simp [h], by simp [hie, asymm h], by simp [hin, h.ne']⟩
  · rw [if_neg (by rw [← h]; exact lt_irrefl 0), if_neg (by rw [← h]; exact lt_irrefl 0)]
    exact ⟨by simp [hin.symm, ← h], by simp [hen.symm, ← h], by simp [h.symm]⟩
  · rw [if_neg (asymm h), if_pos h]
    exact ⟨by simp [hie.symm, asymm h], by simp [h], by simp [hen, ne_of_lt h]⟩

theorem txRows_amount_invert (rs : List (List Str)) (rules : Rules) :
    (rs.filterMap (parseRow true rules)).map TxRow.amount =
      invertAmounts ((rs.filterMap (parseRow false rules)).map TxRow.amount) := by
  induction rs with
  | nil => rfl
  | cons r rest ih =>
    cases hd : parseDate (r.getD 0 []) with
    | none =>
      rw [List.filterMap_cons, List.filterMap_cons, parseRow_none_date true rules r hd,
        parseRow_none_date false rules r hd]
      exact ih
    | some d =>
      cases ha : parseAmount (r.getD 2 []) with
      | none =>
        rw [List.filterMap_cons, List.filterMap_cons, parseRow_none_amount true rules r ha,
          parseRow_none_amount false rules r ha]
        exact ih
      | some a =>
        rw [List.filterMap_cons, List.filterMap_cons, parseRow_some true rules r d a hd ha,
          parseRow_some false rules r d a hd ha]
        simp only [invertAmounts, List.map_cons, if_pos, if_neg] at ih ⊢
        rw [ih]
        simp [invertAmounts]

theorem amt_neg50 : parseAmount ("-50.00".data) = some (-50) := by
  have h : parseAmount ("-50.00".data) =
      some (-(((digitsToNat ("50".data) : Nat) : Rat) +
        ((digitsToNat ("00".data) : Nat) : Rat) / (10 : Rat) ^ ("00".data).length)) := rfl
  have h50 : digitsToNat ("50".data) = 50 := by decide
  have h00 : digitsToNat ("00".data) = 0 := by decide
  rw [h, h50, h00]
  norm_num

theorem amt_2000 : parseAmount ("2000.00".data) = some 2000 := by
  have h : parseAmount ("2000.00".data) =
      some ((((digitsToNat ("2000".data) : Nat) : Rat)) +
        ((digitsToNat ("00".data) : Nat) : Rat) / (10 : Rat) ^ ("00".data).length) := rfl
  have h2000 : digitsToNat ("2000".data) = 2000 := by decide
  have h00 : digitsToNat ("00".data) = 0 := by decide
  rw [h, h2000, h00]
  norm_num

theorem parseRow_kroger :
    parseRow false defaultRules (["2024-01-05".data, "KROGER".data, "-50.00".data]) =
      some krogerRow := by
  have hd : parseDate ((["2024-01-05".data, "KROGER".data, "-50.00".data] : List Str).getD 0 []) =
      some ⟨2024, 1, 5⟩ := by decide
  have ha : parseAmount ((["2024-01-05".data, "KROGER".data, "-50.00".data] : List Str).getD 2 []) =
      some (-50) := amt_neg50
  rw [parseRow_some false defaultRules _ _ _ hd ha]
  have hif : (if false then -(-50 : Rat) else (-50 : Rat)) = (-50 : Rat) := rfl
  rw [hif]
  have hstrip : strip ((["2024-01-05".data, "KROGER".data, "-50.00".data] : List Str).getD 1 []) =
      "KROGER".data := by decide
  rw [hstrip]
  have hcat : categorize ("KROGER".data) defaultRules = groceriesCat := by decide
  have hty : typeOf (-50 : Rat) = expenseTy := by
    unfold typeOf
    norm_num
  rw [hcat, hty]
  rfl

theorem parseRow_payroll :
    parseRow false defaultRules (["2024-01-10".data, "PAYROLL".data, "2000.00".data]) =
      some payrollRow := by
  have hd : parseDate ((["2024-01-10".data, "PAYROLL".data, "2000.00".data] : List Str).getD 0 []) =
      some ⟨2024, 1, 10⟩ := by decide
  have ha : parseAmount ((["2024-01-10".data, "PAYROLL".data, "2000.00".data] : List Str).getD 2 []) =
      some 2000 := amt_2000
  rw [parseRow_some false defaultRules _ _ _ hd ha]
  have hif : (if false then -(2000 : Rat) else (2000 : Rat)) = (2000 : Rat) := rfl
  rw [hif]
  have hstrip : strip ((["2024-01-10".data, "PAYROLL".data, "2000.00".data] : List Str).getD 1 []) =
      "PAYROLL".data := by decide
  rw [hstrip]
  have hcat : categorize ("PAYROLL".data) defaultRules = incomeTy := by decide
  have hty : typeOf (2000 : Rat) = incomeTy := by
    unfold typeOf
    norm_num
  rw [hcat, hty]
  rfl

theorem txRows_ex : txRows exTable false defaultRules = [krogerRow, payrollRow] := by
  have hnt : (normTable exTable).rows =
      [["2024-01-05".data, "KROGER".data, "-50.00".data],
       ["2024-01-10".data, "PAYROLL".data, "2000.00".data]] := by decide
  unfold txRows
  rw [hnt]
  rw [List.filterMap_cons_some parseRow_kroger,
    List.filterMap_cons_some parseRow_payroll, List.filterMap_nil]

theorem mf_ex : month_filter [krogerRow, payrollRow] (some exMonth) = [krogerRow, payrollRow] := by
  decide

theorem summarize_ex :
    summarize [krogerRow, payrollRow] =
      ⟨2000, 50, 1950, 195 / 2, [(groceriesCat, 50)], [krogerRow, payrollRow]⟩ := by
  have hti : total_income [krogerRow, payrollRow] = 2000 := by
    unfold total_income
    have hfil : ([krogerRow, payrollRow].filter (fun r => r.type == incomeTy)) = [payrollRow] := by
      decide
    rw [hfil]
    show payrollRow.amount + 0 = 2000
    norm_num [payrollRow]
  have hte : total_expense [krogerRow, payrollRow] = 50 := by
    unfold total_expense
    have hfil : ([krogerRow, payrollRow].filter (fun r => r.type == expenseTy)) = [krogerRow] := by
      decide
    rw [hfil]
    show -(krogerRow.amount + 0) = 50
    norm_num [krogerRow]
  have hec : expenses_by_cat [krogerRow, payrollRow] = [(groceriesCat, 50)] := by
    unfold expenses_by_cat
    have hcats : expenseCats [krogerRow, payrollRow] = [groceriesCat] := by decide
    rw [hcats]
    have hce : catExpense [krogerRow, payrollRow] groceriesCat = 50 := by
      unfold catExpense
      have hfil : ([krogerRow, payrollRow].filter
          (fun r => r.type == expenseTy && r.category == groceriesCat)) = [krogerRow] := by decide
      rw [hfil]
      show -(krogerRow.amount + 0) = 50
      norm_num [krogerRow]
    rw [List.map_cons, List.map_nil, hce]
  unfold summarize
  rw [hti, hte, hec]
  norm_num [Summary.mk.injEq]

theorem run_ex :
    run exTable (some exMonth) false defaultRules =
      Except.ok ⟨2000, 50, 1950, 195 / 2, [(groceriesCat, 50)], [krogerRow, payrollRow]⟩ := by
  unfold run
  rw [if_pos (by decide : hasCanonical exTable = true),
    if_neg (by decide : ¬ (badDates exTable = true)),
    if_neg (by decide : ¬ (badAmounts exTable = true))]
  simp only [txRows_ex, mf_ex]
  rw [if_neg (by decide : ¬ (([krogerRow, payrollRow] : List TxRow).isEmpty = true))]
  rw [summarize_ex]

theorem mem_labelIndices (cols : List Str) (n : Str) (i : Nat) :
    i ∈ labelIndices cols n ↔ i < cols.length ∧ cols.getD i [] = n := by
  unfold labelIndices
  rw [List.mem_filter, List.mem_range]
  simp

theorem labelIndices_map_getD (cols : List Str) (n : Str) :
    (labelIndices cols n).map (fun i => cols.getD i []) =
      List.replicate (labelIndices cols n).length n := by
  apply List.eq_replicate_iff.mpr
  refine ⟨by simp, ?_⟩
  intro b hb
  rcases List.mem_map.mp hb with ⟨i, hi, rfl⟩
  exact ((mem_labelIndices cols n i).mp hi).2

theorem getD_mem_of_lt (l : List Str) (i : Nat) (h : i < l.length) : l.getD i [] ∈ l := by
  rw [List.getD_eq_getElem?_getD, List.getElem?_eq_getElem h]
  simp

theorem hasCanonical_iff (t : Table) :
    hasCanonical t = true ↔
      dateCol ∈ mappedCols t ∧ descCol ∈ mappedCols t ∧ amountCol ∈ mappedCols t := by
  unfold hasCanonical
  simp [List.contains, and_assoc]

theorem mem_of_labelIndices_len (cols : List Str) (n : Str)
    (h : (labelIndices cols n).length = 1) : n ∈ cols := by
  rcases List.length_eq_one.mp h with ⟨i, hi⟩
  have hm : i ∈ labelIndices cols n := by
    rw [hi]
    exact List.mem_cons_self i []
  rcases (mem_labelIndices cols n i).mp hm with ⟨hlt, hgd⟩
  rw [← hgd]
  exact getD_mem_of_lt cols i hlt

theorem normTable_cols_unique (t : Table)
    (hd : (labelIndices (mappedCols t) dateCol).length = 1)
    (hs : (labelIndices (mappedCols t) descCol).length = 1)
    (ha : (labelIndices (mappedCols t) amountCol).length = 1) :
    (normTable t).cols = [dateCol, descCol, amountCol] := by
  show (selIdxs (mappedCols t)).map (fun i => (mappedCols t).getD i []) = _
  unfold selIdxs
  rw [List.map_append, List.map_append, labelIndices_map_getD, labelIndices_map_getD,
    labelIndices_map_getD, hd, hs, ha]
  rfl

theorem runProgram_eq_run_of_unique (t : Table) (month : Option Str) (inv : Bool)
    (rules : Rules) (hdd : ¬ 1 < labelCount t dateCol) (hds : ¬ 1 < labelCount t descCol)
    (hda : ¬ 1 < labelCount t amountCol) :
    runProgram t month inv rules = run t month inv rules := by
  unfold runProgram run
  by_cases hc : hasCanonical t = true
  · rw [if_pos hc, if_pos hc, if_neg hdd]
    by_cases h2 : badDates t = true
    · rw [if_pos h2, if_pos h2]
    · rw [if_neg h2, if_neg h2, if_neg hds, if_neg hda]
  · rw [if_neg hc, if_neg hc]

theorem upper_kw_no_sub (kw d : Str) (h : containsUpper kw = true) :
    hasSub kw (lower d) = false := by
  by_contra hcon
  rw [Bool.not_eq_false] at hcon
  rcases (hasSub_iff kw (lower d)).mp hcon with ⟨p, q, hpq⟩
  unfold containsUpper at h
  rcases List.any_eq_true.mp h with ⟨ch, hch, hup⟩
  have hmem : ch ∈ lower d := by
    rw [hpq]
    exact List.mem_append_left _ (List.mem_append_right _ hch)
  rw [mem_lower_not_upper d ch hmem] at hup
  exact Bool.false_ne_true hup

/-- Claim C1: the aggregator returns total_income equal to the sum of amounts of
income-typed rows, total_expense equal to the negated sum of amounts of
expense-typed rows (a positive magnitude), and savings equal to income minus
expense; on the spec's two-row example with the built-in default rules and month
2024-01 the run yields total_income 2000, total_expense 50, savings 1950,
savings_rate 97.5 and a groceries entry of 50 in the expenses-by-category table. -/
theorem claim1_aggregator :
    (∀ rows : List TxRow,
      (summarize rows).total_income =
          ((rows.filter (fun r => r.type == incomeTy)).map TxRow.amount).sum ∧
        (summarize rows).total_expense =
          -((rows.filter (fun r => r.type == expenseTy)).map TxRow.amount).sum ∧
        (summarize rows).savings =
          (summarize rows).total_income - (summarize rows).total_expense) ∧
      ∃ s, run exTable (some exMonth) false defaultRules = Except.ok s ∧
        s.total_income = 2000 ∧ s.total_expense = 50 ∧ s.savings = 1950 ∧
        s.savings_rate = 195 / 2 ∧ s.expenses_by_cat = [(groceriesCat, 50)] :=
  ⟨fun _ => ⟨rfl, rfl, rfl⟩,
   ⟨_, run_ex, rfl, rfl, rfl, rfl, rfl⟩⟩

/-- Claim C2: categorize lowercases the description, scans categories in rule
order, and returns the label of the first category one of whose keywords occurs
as a substring of the lowercased description; with no match anywhere it returns
the fallback label; with rules groceries mapped to [kroger], the description
KROGER #123 is categorized groceries and an unmatched description is
uncategorized. -/
theorem claim2_categorize :
    (∀ desc : Str, ∀ rules : Rules,
      (∀ p ∈ rules, ∀ kw ∈ p.2, hasSub kw (lower desc) = false) →
        categorize desc rules = uncategorized) ∧
    (∀ desc : Str, ∀ pre : Rules, ∀ cat : Str, ∀ kws : List Str, ∀ post : Rules,
      (∀ p ∈ pre, ∀ kw ∈ p.2, hasSub kw (lower desc) = false) →
      (∃ kw ∈ kws, hasSub kw (lower desc) = true) →
        categorize desc (pre ++ (cat, kws) :: post) = cat) ∧
    categorize exDesc exRules = groceriesCat ∧
    categorize noMatchDesc exRules = uncategorized :=
  ⟨fun desc rules h => catScan_no_match (lower desc) rules h,
   fun desc pre cat kws post hpre hhit => catScan_first (lower desc) pre cat kws post hpre hhit,
   by decide, by decide⟩

theorem claim2_categorize_witness :
    categorize exDesc ([] ++ (groceriesCat, ["kroger".data]) :: []) = groceriesCat :=
  claim2_categorize.2.1 exDesc [] groceriesCat (["kroger".data]) []
    (by decide) ⟨"kroger".data, by decide, by decide⟩

/-- Claim C3 counterexample: a table whose debit and credit columns both map to
amount passes normalization without error but yields four columns (amount
twice), not exactly the three canonical ones. -/
theorem claim3_counterexample :
    normalize_columns cxTable = Except.ok (normTable cxTable) ∧
      (normTable cxTable).cols = [dateCol, descCol, amountCol, amountCol] ∧
      (normTable cxTable).cols ≠ [dateCol, descCol, amountCol] :=
  ⟨rfl, by decide, by decide⟩

/-- Claim C3 (amended): whenever the canonical names date, description, amount
are all present after lowercasing, trimming and synonym mapping, normalization
succeeds without error; and when each canonical name matches exactly one column
after mapping, the result has exactly the three columns date, description,
amount, in that order. -/
theorem claim3_normalize_amended :
    (∀ t : Table, hasCanonical t = true → normalize_columns t = Except.ok (normTable t)) ∧
    (∀ t : Table,
      (labelIndices (mappedCols t) dateCol).length = 1 →
      (labelIndices (mappedCols t) descCol).length = 1 →
      (labelIndices (mappedCols t) amountCol).length = 1 →
        normalize_columns t = Except.ok (normTable t) ∧
          (normTable t).cols = [dateCol, descCol, amountCol]) := by
  constructor
  · intro t h
    unfold normalize_columns
    rw [if_pos h]
  · intro t hd hs ha
    constructor
    · unfold normalize_columns
      rw [if_pos ((hasCanonical_iff t).mpr
        ⟨mem_of_labelIndices_len _ _ hd, mem_of_labelIndices_len _ _ hs,
          mem_of_labelIndices_len _ _ ha⟩)]
    · exact normTable_cols_unique t hd hs ha

theorem claim3_normalize_witness :
    normalize_columns synTable = Except.ok (normTable synTable) ∧
      (normTable synTable).cols = [dateCol, descCol, amountCol] :=
  claim3_normalize_amended.2 synTable (by decide) (by decide) (by decide)

/-- Claim C4 counterexample: on a table with debit and credit both mapping to
amount and every cell parseable, the program terminates with an error (the
uncaught TypeError of pd.to_numeric on a two-column selection) although the
canonical columns are all present, no date or amount cell is unparseable, and
no month was requested — so an error does not occur only under the four
conditions the claim lists. -/
theorem claim4_counterexample :
    (∃ e, runProgram dupTable none false defaultRules = Except.error e) ∧
      hasCanonical dupTable = true ∧ badDates dupTable = false ∧
      badAmounts dupTable = false ∧
      ¬ (∃ m, (none : Option Str) = some m ∧
        month_filter (txRows dupTable false defaultRules) (some m) = []) :=
  ⟨⟨errDupAmount, rfl⟩, by decide, by decide, by decide, by simp⟩

/-- Claim C4 (amended): a run terminates with an error exactly when the
canonical columns are not all present after normalization, or some canonical
label matches more than one column after renaming (the multi-column label
selection makes pd.to_datetime, the .str accessor, or pd.to_numeric raise an
uncaught exception), or some date value is unparseable, or some amount value is
unparseable, or the requested month filter selects zero rows; otherwise it
returns a summary. -/
theorem claim4_exit_amended :
    ∀ (t : Table) (month : Option Str) (inv : Bool) (rules : Rules),
    (∃ e, runProgram t month inv rules = Except.error e) ↔
      (hasCanonical t = false ∨ dupLabels t = true ∨ badDates t = true ∨
        badAmounts t = true ∨
        ∃ m, month = some m ∧ month_filter (txRows t inv rules) (some m) = []) := by
  intro t month inv rules
  unfold runProgram
  by_cases h1 : hasCanonical t = true
  · rw [if_pos h1]
    by_cases hdd : 1 < labelCount t dateCol
    · rw [if_pos hdd]
      simp [h1, dupLabels, hdd]
    · rw [if_neg hdd]
      by_cases h2 : badDates t = true
      · rw [if_pos h2]
        simp [h1, h2]
      · rw [if_neg h2]
        by_cases hds : 1 < labelCount t descCol
        · rw [if_pos hds]
          simp [h1, dupLabels, hds]
        · rw [if_neg hds]
          by_cases hda : 1 < labelCount t amountCol
          · rw [if_pos hda]
            simp [h1, dupLabels, hda]
          · rw [if_neg hda]
            by_cases h3 : badAmounts t = true
            · rw [if_pos h3]
              simp [h1, h3]
            · rw [if_neg h3]
              cases month with
              | none => simp [h1, h2, h3, dupLabels, hdd, hds, hda]
              | some m =>
                by_cases h4 : month_filter (txRows t inv rules) (some m) = []
                · have hemp : (month_filter (txRows t inv rules) (some m)).isEmpty = true := by
                    rw [List.isEmpty_iff]
                    exact h4
                  simp [hemp, h4]
                · have hemp : (month_filter (txRows t inv rules) (some m)).isEmpty = false := by
                    rcases Bool.eq_false_or_eq_true
                      ((month_filter (txRows t inv rules) (some m)).isEmpty) with h | h
                    · exact absurd (List.isEmpty_iff.mp h) h4
                    · exact h
                  simp [h1, h2, h3, h4, hemp, dupLabels, hdd, hds, hda]
  · rw [if_neg h1]
    have h1f : hasCanonical t = false := by simpa using h1
    simp [h1f]

/-- Claim C5: with no month argument the filter returns the table unchanged;
with a YYYY-MM month it keeps exactly the rows whose date formats to that
year-month string; and when the selection is empty the run terminates with the
no-transactions error. -/
theorem claim5_month_filter :
    (∀ rows : List TxRow, month_filter rows none = rows) ∧
    (∀ rows : List TxRow, ∀ m : Str, ∀ r : TxRow,
      r ∈ month_filter rows (some m) ↔ r ∈ rows ∧ formatYM r.date = m) ∧
    (∀ t : Table, ∀ m : Str, ∀ inv : Bool, ∀ rules : Rules,
      hasCanonical t = true → badDates t = false → badAmounts t = false →
      month_filter (txRows t inv rules) (some m) = [] →
        run t (some m) inv rules = Except.error (errMonth m)) := by
  refine ⟨fun rows => rfl, fun rows m r => ?_, fun t m inv rules h1 h2 h3 h4 => ?_⟩
  · unfold month_filter
    rw [List.mem_filter]
    simp
  · unfold run
    rw [if_pos h1, if_neg (by simp [h2]), if_neg (by simp [h3])]
    have hemp : (month_filter (txRows t inv rules) (some m)).isEmpty = true := by
      rw [List.isEmpty_iff]
      exact h4
    simp [hemp]

theorem claim5_month_filter_witness :
    run exTable (some emptyMonth) false defaultRules = Except.error (errMonth emptyMonth) :=
  claim5_month_filter.2.2 exTable emptyMonth false defaultRules
    (by decide) (by decide) (by decide) (by decide)

/-- Claim C6: the savings rate equals savings divided by total income times 100
when total income is strictly positive and 0 otherwise; in particular with
non-positive income the rate is 0 regardless of the expense total, so the
division is only taken with a positive divisor. -/
theorem claim6_savings_rate : ∀ rows : List TxRow,
    (0 < total_income rows →
      (summarize rows).savings_rate =
        (summarize rows).savings / (summarize rows).total_income * 100) ∧
    (total_income rows ≤ 0 → (summarize rows).savings_rate = 0) := by
  intro rows
  unfold summarize
  constructor
  · intro h
    simp [h]
  · intro h
    have h2 : ¬ (0 < total_income rows) := not_lt.mpr h
    simp [h2]

theorem claim6_savings_rate_witness : (summarize [krogerRow]).savings_rate = 0 :=
  (claim6_savings_rate [krogerRow]).2 (by decide)

/-- Claim C7: the inversion step negates every amount uniformly after parsing —
the amount column produced with the flag set is the pointwise negation of the
column produced without it — and inversion is an involution, so applying it
twice restores the original amounts. -/
theorem claim7_invert :
    (∀ t : Table, ∀ rules : Rules,
      (txRows t true rules).map TxRow.amount =
        invertAmounts ((txRows t false rules).map TxRow.amount)) ∧
    (∀ xs : List Rat, invertAmounts xs = xs.map (fun x => -x)) ∧
    (∀ xs : List Rat, invertAmounts (invertAmounts xs) = xs) := by
  refine ⟨fun t rules => txRows_amount_invert (normTable t).rows rules, fun xs => rfl,
    fun xs => ?_⟩
  unfold invertAmounts
  rw [List.map_map]
  simp

/-- Claim C8: every processed row carries exactly one category — the categorizer
applied to its description — and exactly one type, determined solely by the sign
of the post-inversion amount: income iff positive, expense iff negative, neutral
iff zero. -/
theorem claim8_row_type : ∀ (t : Table) (inv : Bool) (rules : Rules) (r : TxRow),
    r ∈ txRows t inv rules →
      r.category = categorize r.description rules ∧ r.type = typeOf r.amount ∧
      (r.type = incomeTy ↔ 0 < r.amount) ∧ (r.type = expenseTy ↔ r.amount < 0) ∧
      (r.type = neutralTy ↔ r.amount = 0) := by
  intro t inv rules r hr
  obtain ⟨cell, hcell, hpr⟩ := List.mem_filterMap.mp hr
  cases hd : parseDate (cell.getD 0 []) with
  | none =>
    rw [parseRow_none_date inv rules cell hd] at hpr
    exact absurd hpr (by simp)
  | some d =>
    cases ha : parseAmount (cell.getD 2 []) with
    | none =>
      rw [parseRow_none_amount inv rules cell ha] at hpr
      exact absurd hpr (by simp)
    | some a =>
      rw [parseRow_some inv rules cell d a hd ha, Option.some_inj] at hpr
      subst hpr
      exact ⟨rfl, rfl, typeOf_cases _⟩

theorem claim8_row_type_witness :
    krogerRow.category = categorize krogerRow.description defaultRules ∧
      krogerRow.type = typeOf krogerRow.amount ∧
      (krogerRow.type = incomeTy ↔ 0 < krogerRow.amount) ∧
      (krogerRow.type = expenseTy ↔ krogerRow.amount < 0) ∧
      (krogerRow.type = neutralTy ↔ krogerRow.amount = 0) :=
  claim8_row_type exTable false defaultRules krogerRow (by simp [txRows_ex])

/-- Claim C9: categorization and the whole run are deterministic functions of
their inputs: equal descriptions under equal rule sets yield equal categories,
and identical inputs yield identical summaries. -/
theorem claim9_deterministic :
    (∀ d₁ d₂ : Str, ∀ r₁ r₂ : Rules, d₁ = d₂ → r₁ = r₂ →
      categorize d₁ r₁ = categorize d₂ r₂) ∧
    (∀ t₁ t₂ : Table, ∀ m₁ m₂ : Option Str, ∀ i₁ i₂ : Bool, ∀ ru₁ ru₂ : Rules,
      t₁ = t₂ → m₁ = m₂ → i₁ = i₂ → ru₁ = ru₂ →
        run t₁ m₁ i₁ ru₁ = run t₂ m₂ i₂ ru₂) := by
  constructor
  · intro d₁ d₂ r₁ r₂ hd hr
    rw [hd, hr]
  · intro t₁ t₂ m₁ m₂ i₁ i₂ ru₁ ru₂ ht hm hi hru
    rw [ht, hm, hi, hru]

theorem claim9_deterministic_witness :
    categorize exDesc exRules = categorize exDesc exRules :=
  claim9_deterministic.1 exDesc exDesc exRules exRules rfl rfl

/-- Claim C10: the categorizer lowercases the description but compares keywords
verbatim, so a keyword containing an uppercase ASCII letter never occurs in a
lowercased description, and a category all of whose keywords contain an
uppercase ASCII letter can only ever be returned as the fallback label, never by
keyword match. -/
theorem claim10_upper_keywords :
    (∀ kw d : Str, containsUpper kw = true → hasSub kw (lower d) = false) ∧
    (∀ desc : Str, ∀ rules : Rules, ∀ c : Str,
      (∀ p ∈ rules, p.1 = c → ∀ kw ∈ p.2, containsUpper kw = true) →
      categorize desc rules = c → c = uncategorized) := by
  refine ⟨upper_kw_no_sub, ?_⟩
  intro desc rules c
  unfold categorize
  induction rules with
  | nil =>
    intro _ hc
    exact hc.symm
  | cons pr rest ih =>
    intro hall hc
    obtain ⟨c0, kws⟩ := pr
    have hstep : catScan (lower desc) ((c0, kws) :: rest) =
        if kwHit (lower desc) kws = true then c0 else catScan (lower desc) rest := rfl
    rw [hstep] at hc
    by_cases hhit : kwHit (lower desc) kws = true
    · rw [if_pos hhit] at hc
      rcases (kwHit_iff (lower desc) kws).mp hhit with ⟨kw, hkw, hsub⟩
      have hupper := hall (c0, kws) (List.mem_cons_self _ _) hc kw hkw
      rw [upper_kw_no_sub kw desc hupper] at hsub
      exact absurd hsub Bool.false_ne_true
    · rw [if_neg hhit] at hc
      exact ih (fun p hp => hall p (List.mem_cons_of_mem _ hp)) hc

theorem claim10_upper_keywords_witness :
    containsUpper upperKw = true ∧
      hasSub upperKw (lower ("kroger store".data)) = false ∧
      uncategorized = uncategorized :=
  ⟨by decide, claim10_upper_keywords.1 upperKw ("kroger store".data) (by decide),
   claim10_upper_keywords.2 ("kroger".data) upperRules uncategorized (by decide) (by decide)⟩
